import Mathlib

/-!
Verification development for the job-application agent repository.

The Python sources are shallowly embedded: pure text manipulation becomes
functions on `String` / `List Char`, browser lookups become explicit outcome
values carried by a page model, and the external language-model service is an
oracle parameter (`Option String`).  Character-level operations model CPython
semantics on the ASCII fragment: `str.lower` is `Char.toLower` (which lowers
exactly `A`..`Z`), `\s` is the ASCII whitespace class, and regex operations
such as stripping a trailing character run or collapsing whitespace are spelled
out with `dropWhile` / `rdropWhile` and an explicit run-collapsing recursion.
-/

/-- Python truthiness of an optional string (`None` and `""` are falsy). -/
def pyTruthy : Option String → Bool
  | none => false
  | some s => !(s == "")

/-- Python ASCII `\s` class: space, tab, newline, vertical tab, form feed,
carriage return (code points 32, 9, 10, 11, 12, 13). -/
def isPySpace (c : Char) : Bool :=
  c.toNat == 32 || c.toNat == 9 || c.toNat == 10 || c.toNat == 11 ||
  c.toNat == 12 || c.toNat == 13

/-- Character class of `re.sub(r'[\s() / -]+$', '', text)` in `normalize_text`:
whitespace, parentheses (40, 41), slash (47) and hyphen (45). -/
def isTrailStripChar (c : Char) : Bool :=
  isPySpace c || c.toNat == 40 || c.toNat == 41 || c.toNat == 47 || c.toNat == 45

/-- Character class `[a-zA-Z0-9]` used (with `re.IGNORECASE`) by the
leading-strip regex `^[^a-z0-9]+` of `normalize_text`. -/
def isAlnumCI (c : Char) : Bool :=
  (97 ≤ c.toNat && c.toNat ≤ 122) || (65 ≤ c.toNat && c.toNat ≤ 90) ||
  (48 ≤ c.toNat && c.toNat ≤ 57)

/-- Python regex `\w` on the ASCII fragment: `[a-zA-Z0-9_]` (95 is `_`). -/
def isWordChar (c : Char) : Bool := isAlnumCI c || c.toNat == 95

/-- `text.lower()` on a character list (ASCII fragment of CPython's `str.lower`). -/
def pyLowerL (l : List Char) : List Char := l.map Char.toLower

/-- `text.strip()`: drop the leading and trailing whitespace runs. -/
def pyStripL (l : List Char) : List Char :=
  (l.dropWhile isPySpace).rdropWhile isPySpace

/-- Auxiliary recursion for `re.sub(r'\s+', ' ', text)`: the flag records
whether the previous character was part of a whitespace run. -/
def collapseAux : Bool → List Char → List Char
  | _, [] => []
  | inRun, c :: rest =>
    if isPySpace c then
      if inRun then collapseAux true rest else ' ' :: collapseAux true rest
    else c :: collapseAux false rest

/-- `re.sub(r'\s+', ' ', text)`: each maximal whitespace run becomes one space. -/
def collapseWS (l : List Char) : List Char := collapseAux false l

/-- `text.lower()` on strings. -/
def pyLowerS (s : String) : String := String.mk (pyLowerL s.data)

/-- `text.strip()` on strings. -/
def pyStripS (s : String) : String := String.mk (pyStripL s.data)

/-- Python substring containment `needle in hay` on character lists. -/
def containsSubL (hay needle : List Char) : Bool :=
  (List.range (hay.length + 1)).any (fun i => needle.isPrefixOf (hay.drop i))

/-- Python substring containment `needle in hay` on strings. -/
def containsSubS (hay needle : String) : Bool := containsSubL hay.data needle.data

/-- `str.split(sep)` for a one-character separator: split at every occurrence,
keeping empty pieces (CPython semantics). -/
def splitOnChar (sep : Char) : List Char → List (List Char)
  | [] => [[]]
  | c :: rest =>
    if c = sep then [] :: splitOnChar sep rest
    else
      match splitOnChar sep rest with
      | [] => [[c]]
      | piece :: pieces => (c :: piece) :: pieces

/-- Maximal runs of characters satisfying `keep`, with an accumulator holding
the current run reversed; models `re.findall` of a character-class `+` pattern
and no-argument `str.split`. -/
def runsByAux (keep : Char → Bool) (acc : List Char) : List Char → List (List Char)
  | [] => if acc.isEmpty then [] else [acc.reverse]
  | c :: rest =>
    if keep c then runsByAux keep (c :: acc) rest
    else if acc.isEmpty then runsByAux keep [] rest
    else acc.reverse :: runsByAux keep [] rest

/-- Maximal runs of characters satisfying `keep`. -/
def runsBy (keep : Char → Bool) (l : List Char) : List (List Char) :=
  runsByAux keep [] l

/-- `normalize_text` from `apply_on_site.py` on character lists:
lower-case, strip a trailing `[\s() / -]` run then `strip()`, strip a leading
non-alphanumeric run then `strip()`, collapse whitespace runs then `strip()`. -/
def normalizeList (l : List Char) : List Char :=
  let t0 := pyLowerL l
  let t1 := pyStripL (t0.rdropWhile isTrailStripChar)
  let t2 := pyStripL (t1.dropWhile (fun c => !isAlnumCI c))
  pyStripL (collapseWS t2)

/-- `normalize_text(text)` from `apply_on_site.py` (the `if not text` guard is
subsumed: all four steps fix the empty string). -/
def normalize_text (s : String) : String := String.mk (normalizeList s.data)

/-! ### Filtering layer (`run_agent.py`) -/

/-- `EXCLUSION_KEYWORDS` from `run_agent.py`. -/
def EXCLUSION_KEYWORDS : List String :=
  ["senior", "lead", "principal", "sr.", "director",
   "intern", "internship", "praktikant", "praktikum",
   "ausbildung", "auszubildende"]

/-- `ignore_terms` of `title_matches_suggestion`. -/
def IGNORE_TERMS : List String :=
  ["werkstudent", "working", "student", "/", "m", "w", "d", "gn", "in"]

/-- `set(re.findall(r'\b\w+\b', suggested_lower)) - ignore_terms`.  The Python
set also deduplicates; a deduplicated and a plain list agree on emptiness and
on `all(...)`-style membership tests, which is all the source uses. -/
def suggestionTerms (suggestedLower : List Char) : List (List Char) :=
  (runsBy isWordChar suggestedLower).filter
    (fun w => !(IGNORE_TERMS.contains (String.mk w)))

/-- `title_matches_suggestion(found_title, suggested_title)` from `run_agent.py`. -/
def title_matches_suggestion (found_title suggested_title : String) : Bool :=
  if found_title.data.isEmpty || suggested_title.data.isEmpty then false
  else
    let fl := pyLowerL found_title.data
    if !containsSubL fl "werkstudent".data &&
       !containsSubL fl "working student".data then false
    else
      let terms := suggestionTerms (pyLowerL suggested_title.data)
      if terms.isEmpty then true
      else terms.all (fun t => containsSubL fl t)

/-- `any(excl_kw in job_title.lower() for excl_kw in EXCLUSION_KEYWORDS)`. -/
def excludedTitle (title : String) : Bool :=
  EXCLUSION_KEYWORDS.any (fun kw => containsSubL (pyLowerL title.data) kw.data)

/-! ### Scraping loop (`run_agent.py`, phase 2)

One event is a scraped job card paired with the `suggested_role` of the
search that produced it; the card's `description` already carries the
outcome of the detail fetch (an external oracle).  The state is the pair
`(all_found_jobs, processed_job_urls)`; the Python set of seen URLs is
modelled as a list, which the loop only ever appends to. -/

structure JobCard where
  url : Option String
  title : String
  description : Option String
deriving DecidableEq

/-- One iteration of the per-card body shared by the LinkedIn and StepStone
branches: skip when the URL is falsy or already processed; when the strict
filter passes, append the (detail-enriched) card and record the URL. -/
def scrapeStep (st : List JobCard × List String) (ev : JobCard × String) :
    List JobCard × List String :=
  if !pyTruthy ev.1.url then st
  else if ev.1.url.getD "" ∈ st.2 then st
  else if title_matches_suggestion ev.1.title ev.2 && !excludedTitle ev.1.title then
    (st.1 ++ [ev.1], st.2 ++ [ev.1.url.getD ""])
  else st

/-- The whole location x role x source loop, flattened into its sequence of
per-card iterations, starting from the empty collection and empty seen-set. -/
def scrapeRun (evs : List (JobCard × String)) : List JobCard × List String :=
  evs.foldl scrapeStep ([], [])

/-- The URLs carried by the collected job records. -/
def cardUrls (jobs : List JobCard) : List String :=
  jobs.filterMap (fun j => j.url)

/-- A concrete scraped card used in closed instantiations. -/
def sampleCard : JobCard :=
  { url := some "https://x/1", title := "Werkstudent", description := none }

/-! ### Role-suggestion parser (`gemini_client.py`)

`generate_text` performs the network call to the language-model service; its
result is passed in as an oracle value `response : Option String` (`none`
models every failure path of `generate_text`). -/

/-- One parsing pass of `suggest_job_titles_from_resume`: split the response
on `sep`, keep pieces that are non-blank and mention a working-student term
(checked on the unstripped piece, as in the source), and strip each kept
piece. -/
def parseTitlePieces (sep : Char) (resp : List Char) : List String :=
  ((splitOnChar sep resp).filter (fun piece =>
      !(pyStripL piece).isEmpty &&
      (containsSubL (pyLowerL piece) "werkstudent".data ||
       containsSubL (pyLowerL piece) "working student".data))).map
    (fun piece => String.mk (pyStripL piece))

/-- `suggest_job_titles_from_resume(resume_text, num_suggestions)` from
`gemini_client.py`, with the service response as an oracle argument. -/
def suggest_job_titles_from_resume (resume_text : String) (num_suggestions : Nat)
    (response : Option String) : List String :=
  if resume_text.data.isEmpty then []
  else
    match response with
    | none => []
    | some rt =>
      if rt.data.isEmpty then []
      else if !(parseTitlePieces ',' rt.data).isEmpty then
        (parseTitlePieces ',' rt.data).take num_suggestions
      else if (parseTitlePieces '\n' rt.data).isEmpty then []
      else (parseTitlePieces '\n' rt.data).take num_suggestions

/-! ### Start-date computation (`fill_application_form`) -/

/-- A `datetime.date`, month `1`..`12`. -/
structure PyDate where
  year : Nat
  month : Nat
  day : Nat
deriving DecidableEq, Repr

/-- `today.replace(day=1)`. -/
def replaceDay1 (d : PyDate) : PyDate := { d with day := 1 }

/-- `relativedelta(months=1)` added to a date; on a first-of-month date this
is plain month advancement with year rollover (no day clamping needed). -/
def addOneMonth (d : PyDate) : PyDate :=
  if d.month = 12 then { year := d.year + 1, month := 1, day := d.day }
  else { d with month := d.month + 1 }

/-- The start-date heuristic of `fill_application_form`:
`(today.replace(day=1) + relativedelta(months=1)) + relativedelta(months=1)`. -/
def computeStartDate (today : PyDate) : PyDate :=
  addOneMonth (addOneMonth (replaceDay1 today))

/-- Two-digit zero padding, as in `strftime` `%d` / `%m`. -/
def pad2 (n : Nat) : String := if n < 10 then "0" ++ toString n else toString n

/-- `strftime("%d.%m.%Y")` (years in this model are four-digit, where `%Y`
prints the decimal digits). -/
def formatDMY (d : PyDate) : String :=
  pad2 d.day ++ "." ++ pad2 d.month ++ "." ++ toString d.year

/-! ### Mandatory-field detector (`is_field_mandatory`)

Attribute reads are total reads of the element snapshot (`Option String`);
each DOM label/span lookup is summarised by a `Probe` outcome: visible with
its `text_content`, not visible, or raising (`PlaywrightTimeoutError` /
other), which the source catches per block. -/

inductive Probe where
  | vis (text : Option String)
  | invisible
  | timeoutErr
  | otherErr
deriving DecidableEq

/-- `text and '*' in text` (an empty text contains no asterisk either way). -/
def textHasStar : Option String → Bool
  | some t => containsSubS t "*"
  | none => false

/-- Asterisk found in a probed element: requires visibility and a `*` in the
text; a non-visible or raising probe yields no detection. -/
def starIfVisible : Probe → Bool
  | .vis t => textHasStar t
  | _ => false

structure ElementModel where
  requiredAttr : Option String
  ariaRequired : Option String
  idAttr : Option String
  nameAttr : Option String
  labelForId : Probe
  siblingSpanForId : Probe
  labelForName : Probe
  siblingSpanForName : Probe
  ancestorLabel : Probe
deriving DecidableEq

/-- The `label[for=id]` block: label text asterisk first, then the sibling
span; a raising label probe aborts the block (both checks share one
`try`/`except`), degrading to no detection. -/
def idBlock (e : ElementModel) : Bool :=
  match e.labelForId with
  | .vis t => if textHasStar t then true else starIfVisible e.siblingSpanForId
  | .invisible => starIfVisible e.siblingSpanForId
  | .timeoutErr => false
  | .otherErr => false

/-- The `label[for=name]` block: the sibling span is only consulted when the
label is visible, and (as in the source) the label's own text is not
checked for an asterisk here. -/
def nameBlock (e : ElementModel) : Bool :=
  match e.labelForName with
  | .vis _ => starIfVisible e.siblingSpanForName
  | _ => false

/-- The ancestor-`<label>` block. -/
def ancestorBlock (e : ElementModel) : Bool := starIfVisible e.ancestorLabel

/-- `is_field_mandatory(element)` from `apply_on_site.py`.  Note the guards:
`if element.get_attribute('required'):` and `if input_id:` are Python
truthiness tests, so an attribute present with value `""` does not pass. -/
def is_field_mandatory (e : ElementModel) : Bool :=
  if pyTruthy e.requiredAttr then true
  else if e.ariaRequired == some "true" then true
  else if pyTruthy e.idAttr && idBlock e then true
  else if pyTruthy e.nameAttr && nameBlock e then true
  else if ancestorBlock e then true
  else false

/-- A probe carrying no asterisk signal (not visible, raised, or visible
without a `*` in its text). -/
def probeNoStar : Probe → Bool
  | .vis t => !textHasStar t
  | _ => true

/-- No mandatory signal at all: required attribute not truthy, accessibility
attribute not `"true"`, and none of the five label probes shows an asterisk. -/
def noMandatorySignal (e : ElementModel) : Bool :=
  !pyTruthy e.requiredAttr && !(e.ariaRequired == some "true") &&
  probeNoStar e.labelForId && probeNoStar e.siblingSpanForId &&
  probeNoStar e.labelForName && probeNoStar e.siblingSpanForName &&
  probeNoStar e.ancestorLabel

/-- A control with a bare `required` attribute (`<input required>`: the DOM
reports the attribute value as `""`) and no label anywhere. -/
def eBareRequired : ElementModel :=
  { requiredAttr := some "", ariaRequired := none, idAttr := none,
    nameAttr := none, labelForId := .invisible, siblingSpanForId := .invisible,
    labelForName := .invisible, siblingSpanForName := .invisible,
    ancestorLabel := .invisible }

/-- A control with `required="required"` and no label anywhere. -/
def eValuedRequired : ElementModel := { eBareRequired with requiredAttr := some "required" }

/-- A control with no signal of any kind. -/
def eNoSignals : ElementModel := { eBareRequired with requiredAttr := none }

/-! ### Form filler (`fill_application_form`)

The page is a snapshot of which selector lookups find a visible (or for file
inputs, enabled) control, including the option lists of the two dropdowns and
the page's `input[type="file"]` elements.  Each successful interaction of the
source increments `filled_count` by one and performs exactly one Playwright
action; the embedding records both.  Per-field exceptions are caught in the
source and simply skip the field, which the snapshot expresses by the
corresponding lookup yielding nothing.  Placeholder-document generation
outcomes (`generate_placeholder_doc_text`, `generate_placeholder_pdf`) are
oracle bits on each file input. -/

inductive Target where
  | salutation | firstName | lastName | email | phone | resumeUpload
  | startDate | salary | otherFile (nm : String) | sourceDropdown
  | consent | submitButton
deriving DecidableEq

inductive FormAction where
  | selectByValue (t : Target) (v : String)
  | selectByLabel (t : Target) (lbl : String)
  | selectByIndex (t : Target) (i : Nat)
  | fillField (t : Target) (v : String)
  | setInputFiles (t : Target) (path : String)
  | checkBox (t : Target)
  | click (t : Target)
deriving DecidableEq

def actionTarget : FormAction → Target
  | .selectByValue t _ => t
  | .selectByLabel t _ => t
  | .selectByIndex t _ => t
  | .fillField t _ => t
  | .setInputFiles t _ => t
  | .checkBox t => t
  | .click t => t

def isClickAction : FormAction → Bool
  | .click _ => true
  | _ => false

/-- One `<option>`: its `text_content()` and `value` attribute. -/
structure OptionElem where
  text : Option String
  value : Option String
deriving DecidableEq

structure DropdownModel where
  options : List OptionElem
deriving DecidableEq

structure FileInputElem where
  nameAttr : Option String
  idAttr : Option String
  matchesCoverLetterSel : Bool
  visible : Bool
  enabled : Bool
  genTextOk : Bool
  genPdfOk : Bool
deriving DecidableEq

structure PageModel where
  salutationDropdown : Option DropdownModel
  firstNameVisible : Bool
  lastNameVisible : Bool
  emailVisible : Bool
  phoneVisible : Bool
  resumeUploadEnabled : Bool
  startDateVisible : Bool
  salaryVisible : Bool
  fileInputs : List FileInputElem
  sourceDropdown : Option DropdownModel
  consentChecked : Option Bool
  submitVisible : Bool
deriving DecidableEq

/-- `APPLICANT_DATA`-shaped dictionary (`.get` yields `Option`, and the source
tests the values with Python truthiness). -/
structure ApplicantData where
  first_name : Option String
  last_name : Option String
  email : Option String
  phone : Option String
  salutation_preference : Option String
  resume_path : Option String
  salary_expectation : Option String
deriving DecidableEq

/-- Facts external to the page: `os.path.exists(resume_path)` and
`datetime.date.today()`. -/
structure EnvModel where
  resumeFileExists : Bool
  today : PyDate
deriving DecidableEq

/-- The salutation match table of the source (exact normalized equality, plus
Herr/Frau synonym rows). -/
def matchesSalutation (normPref normOpt : String) : Bool :=
  normOpt == normPref ||
  (normPref == "herr" && (normOpt == "mr." || normOpt == "mr")) ||
  (normPref == "frau" &&
    (normOpt == "ms." || normOpt == "ms" || normOpt == "mrs." || normOpt == "mrs"))

/-- The option loop of the salutation block: first matching option wins,
selected by `value` when that attribute is truthy, else by label. -/
def salutationScan (normPref : String) : List OptionElem → Option FormAction
  | [] => none
  | o :: rest =>
    match o.text with
    | none => salutationScan normPref rest
    | some t =>
      if t == "" then salutationScan normPref rest
      else if matchesSalutation normPref (pyStripS (pyLowerS t)) then
        match o.value with
        | some v =>
          if v == "" then some (.selectByLabel .salutation t)
          else some (.selectByValue .salutation v)
        | none => some (.selectByLabel .salutation t)
      else salutationScan normPref rest

def fillSalutation (pg : PageModel) (data : ApplicantData) : Nat × List FormAction :=
  match pg.salutationDropdown with
  | none => (0, [])
  | some dd =>
    match data.salutation_preference with
    | none => (0, [])
    | some pref =>
      if pref == "" then (0, [])
      else
        match salutationScan (pyStripS (pyLowerS pref)) dd.options with
        | some act => (1, [act])
        | none =>
          if dd.options.length > 1 then
            match (dd.options.getD 1 { text := none, value := none }).value with
            | some v =>
              if v == "" then (1, [.selectByIndex .salutation 1])
              else (1, [.selectByValue .salutation v])
            | none => (1, [.selectByIndex .salutation 1])
          else (0, [])

/-- The shared text-field block (first/last name, email, phone): fill from the
profile when the control is visible and the value truthy. -/
def fillTextField (visible : Bool) (t : Target) (value : Option String) :
    Nat × List FormAction :=
  if visible then
    match value with
    | some v => if v == "" then (0, []) else (1, [.fillField t v])
    | none => (0, [])
  else (0, [])

def fillResume (env : EnvModel) (pg : PageModel) (data : ApplicantData) :
    Nat × List FormAction :=
  match data.resume_path with
  | some p =>
    if p == "" then (0, [])
    else if env.resumeFileExists then
      if pg.resumeUploadEnabled then (1, [.setInputFiles .resumeUpload p])
      else (0, [])
    else (0, [])
  | none => (0, [])

def fillStartDate (env : EnvModel) (pg : PageModel) : Nat × List FormAction :=
  if pg.startDateVisible then
    (1, [.fillField .startDate (formatDMY (computeStartDate env.today))])
  else (0, [])

def fillSalary (pg : PageModel) (data : ApplicantData) : Nat × List FormAction :=
  if pg.salaryVisible then
    match data.salary_expectation with
    | some v => if v == "" then (0, []) else (1, [.fillField .salary v])
    | none => (0, [])
  else (0, [])

/-- Python `a or b` for strings. -/
def pyOrStr (v : Option String) (dflt : String) : String :=
  match v with
  | some s => if s == "" then dflt else s
  | none => dflt

/-- `file_input.get_attribute('name') or file_input.get_attribute('id') or
f'input_{i}'`. -/
def fileInputName (fi : FileInputElem) (i : Nat) : String :=
  pyOrStr fi.nameAttr (pyOrStr fi.idAttr ("input_" ++ toString i))

/-- The generated placeholder path; the company segment and the random suffix
of the source's filename are opaque environment values, omitted here. -/
def placeholderPath (nm : String) : String :=
  "output/generated_documents/placeholder_other_document_" ++ nm ++ ".pdf"

/-- The "other file uploads" loop: skip the known resume input name and
cover-letter matches, upload a generated placeholder into at most two of the
remaining visible and enabled file inputs. -/
def otherUploadsLoop (i cnt : Nat) : List FileInputElem → Nat × List FormAction
  | [] => (0, [])
  | fi :: rest =>
    if fi.nameAttr == some "cv[cv]" then otherUploadsLoop (i + 1) cnt rest
    else if fi.matchesCoverLetterSel then otherUploadsLoop (i + 1) cnt rest
    else if fi.visible then
      if cnt < 2 then
        if fi.genTextOk then
          if fi.genPdfOk then
            if fi.enabled then
              let nm := fileInputName fi i
              let res := otherUploadsLoop (i + 1) (cnt + 1) rest
              (res.1 + 1, .setInputFiles (.otherFile nm) (placeholderPath nm) :: res.2)
            else otherUploadsLoop (i + 1) cnt rest
          else otherUploadsLoop (i + 1) cnt rest
        else otherUploadsLoop (i + 1) cnt rest
      else otherUploadsLoop (i + 1) cnt rest
    else otherUploadsLoop (i + 1) cnt rest

/-- The source dropdown block: always pick index 1 (by value when truthy). -/
def fillSource (pg : PageModel) : Nat × List FormAction :=
  match pg.sourceDropdown with
  | none => (0, [])
  | some dd =>
    if dd.options.length > 1 then
      match (dd.options.getD 1 { text := none, value := none }).value with
      | some v =>
        if v == "" then (1, [.selectByIndex .sourceDropdown 1])
        else (1, [.selectByValue .sourceDropdown v])
      | none => (1, [.selectByIndex .sourceDropdown 1])
    else (0, [])

/-- The consent checkbox block: check only when visible and not yet checked. -/
def fillConsent (pg : PageModel) : Nat × List FormAction :=
  match pg.consentChecked with
  | none => (0, [])
  | some checked => if checked then (0, []) else (1, [.checkBox .consent])

/-- Result of one form pass: the internal `filled_count`, the performed
Playwright actions, and the value returned to the caller. -/
structure FillResult where
  filledCount : Nat
  actions : List FormAction
  retval : Option Nat
deriving DecidableEq

/-- `fill_application_form(page, applicant_data)` from `apply_on_site.py`.
The submit-button block at the end only locates and logs the button (the
`submit_locator.click()` line is commented out in the source), so it
contributes no action and no count; and the Python function ends without a
`return` statement, so its caller receives `None`. -/
def fill_application_form (env : EnvModel) (pg : PageModel) (data : ApplicantData) :
    FillResult :=
  let s1 := fillSalutation pg data
  let s2 := fillTextField pg.firstNameVisible .firstName data.first_name
  let s3 := fillTextField pg.lastNameVisible .lastName data.last_name
  let s4 := fillTextField pg.emailVisible .email data.email
  let s5 := fillTextField pg.phoneVisible .phone data.phone
  let s6 := fillResume env pg data
  let s7 := fillStartDate env pg
  let s8 := fillSalary pg data
  let s9 := otherUploadsLoop 0 0 pg.fileInputs
  let s10 := fillSource pg
  let s11 := fillConsent pg
  { filledCount := s1.1 + s2.1 + s3.1 + s4.1 + s5.1 + s6.1 + s7.1 + s8.1 +
      s9.1 + s10.1 + s11.1
    actions := s1.2 ++ s2.2 ++ s3.2 ++ s4.2 ++ s5.2 ++ s6.2 ++ s7.2 ++ s8.2 ++
      s9.2 ++ s10.2 ++ s11.2
    retval := none }

/-- Environment for concrete evaluations: no resume file, mid-March today. -/
def envMarch : EnvModel :=
  { resumeFileExists := false, today := { year := 2025, month := 3, day := 15 } }

/-- A page exposing only a visible email field (plus a visible submit button). -/
def pgEmailOnly : PageModel :=
  { salutationDropdown := none, firstNameVisible := false, lastNameVisible := false,
    emailVisible := true, phoneVisible := false, resumeUploadEnabled := false,
    startDateVisible := false, salaryVisible := false, fileInputs := [],
    sourceDropdown := none, consentChecked := none, submitVisible := true }

/-- A profile supplying only the email address. -/
def dataEmailOnly : ApplicantData :=
  { first_name := none, last_name := none, email := some "iasimsan@gmail.com",
    phone := none, salutation_preference := none, resume_path := none,
    salary_expectation := none }

/-! ### Link resolver (`find_job_link` and the `apply_to_job` resolution flow)

A link element carries its `text_content()` outcome and visibility; the search
context supplies the anchor list (from which the `a:has-text(...)` matches of
strategy 1 are drawn - Playwright `has-text` is a case-insensitive substring
match) and the concatenated element lists of the five `JOB_LINK_SELECTORS`
used by strategy 2. -/

structure LinkElem where
  text : Option String
  visible : Bool
deriving DecidableEq

structure SearchContextM where
  anchors : List LinkElem
  structuralCandidates : List LinkElem
deriving DecidableEq

/-- Keyword preparation of `find_job_link`: replace `( ) / \` by spaces, then
split on whitespace and keep words longer than one character.  (The source
interposes a whitespace-collapse and a `strip()` before `.split()`; both are
absorbed by splitting on whitespace runs.) -/
def targetKeywords (ntt : List Char) : List (List Char) :=
  let cleaned := ntt.map
    (fun c => if c = '(' || c = ')' || c = '/' || c = '\\' then ' ' else c)
  (runsBy (fun c => !isPySpace c) cleaned).filter (fun w => w.length > 1)

/-- Membership in the `a:has-text("<normalized target>")` result set. -/
def hasTextCI (lk : LinkElem) (needle : List Char) : Bool :=
  containsSubL (pyLowerL (lk.text.getD "").data) (pyLowerL needle)

/-- Strategy 1 of `find_job_link`: the first visible direct-text match whose
normalized text contains every target keyword is returned immediately. -/
def directScan (kws : List (List Char)) : List LinkElem → Option LinkElem
  | [] => none
  | lk :: rest =>
    if lk.visible then
      match lk.text with
      | none => directScan kws rest
      | some t =>
        if t == "" then directScan kws rest
        else
          let nt := normalizeList (pyStripL t.data)
          if kws.all (fun k => containsSubL nt k) then some lk
          else directScan kws rest
    else directScan kws rest

/-- `len(normalized_target_title) / len(normalized_text) if normalized_text
else 0`. -/
def linkScore (nttLen : Nat) (ntext : List Char) : ℚ :=
  if ntext.length = 0 then 0 else (nttLen : ℚ) / (ntext.length : ℚ)

/-- Strategy 2 of `find_job_link`: scan the structural candidates, keeping the
candidate with the strictly highest score among those containing every target
keyword (`highest_sim` starts at `0.0` with no best match). -/
def structuralScanAux (ntt : List Char) (kws : List (List Char)) :
    List LinkElem → Option LinkElem → ℚ → Option LinkElem
  | [], best, _ => best
  | lk :: rest, best, hi =>
    if lk.visible then
      match lk.text with
      | none => structuralScanAux ntt kws rest best hi
      | some t =>
        if t == "" then structuralScanAux ntt kws rest best hi
        else
          let nt := normalizeList (pyStripL t.data)
          if kws.all (fun k => containsSubL nt k) then
            let sim := linkScore ntt.length nt
            if hi < sim then structuralScanAux ntt kws rest (some lk) sim
            else structuralScanAux ntt kws rest best hi
          else structuralScanAux ntt kws rest best hi
    else structuralScanAux ntt kws rest best hi

/-- `find_job_link(search_context, target_title)` from `apply_on_site.py`. -/
def find_job_link (ctx : SearchContextM) (target_title : String) : Option LinkElem :=
  let ntt := normalizeList target_title.data
  let kws := targetKeywords ntt
  match directScan kws (ctx.anchors.filter (fun lk => hasTextCI lk ntt)) with
  | some lk => some lk
  | none => structuralScanAux ntt kws ctx.structuralCandidates none 0

/-- A career page as `apply_to_job` probes it after load and cookie handling:
the visibility of each potential primary-apply candidate (the union of the
text, regex and attribute selector strategies, in priority order) and the
search context a job-link search would use. -/
structure CareerPageM where
  primaryApplyVisible : List Bool
  linkContext : SearchContextM
deriving DecidableEq

structure ResolveResult where
  clickedPrimaryApply : Bool
  jobLinkElement : Option LinkElem
  formFillingInvoked : Bool
  findJobLinkInvoked : Bool
deriving DecidableEq

/-- The resolution flow of `apply_to_job` between page load and form filling.
The first visible candidate is clicked (`clicked_primary_apply = True`).  In
the source, `job_link_element` is initialised to `None` before the `try`
block, and when no primary apply button is clicked the `else` branch only
logs "No primary apply button found or clicked. Proceeding to look for job
title link." - the fallback code that would call `find_job_link` is absent
(elided behind comments), so `job_link_element` keeps its `None` value, the
guard `if clicked_primary_apply or job_link_element:` fails, and form filling
is skipped.  `findJobLinkInvoked` records whether any execution path reaches
a `find_job_link` call; none does. -/
def apply_to_job_resolve (pg : CareerPageM) : ResolveResult :=
  let clicked := pg.primaryApplyVisible.any (fun b => b)
  let jle : Option LinkElem := none
  { clickedPrimaryApply := clicked
    jobLinkElement := jle
    formFillingInvoked := clicked || jle.isSome
    findJobLinkInvoked := false }

/-- A visible job-posting link whose title matches the target below. -/
def wsLink : LinkElem :=
  { text := some "Werkstudent Data Analysis (m/w/d)", visible := true }

/-- A career page with no visible primary-apply candidate but with `wsLink`
present both as an anchor and as a structural candidate. -/
def pgNoApplyButton : CareerPageM :=
  { primaryApplyVisible := [false, false, false],
    linkContext := { anchors := [wsLink], structuralCandidates := [wsLink] } }

/-! ### Specification-side predicates used by the theorems -/

/-- An action that neither targets the submit button nor is a click at all. -/
def benignAction (a : FormAction) : Bool :=
  !(actionTarget a == Target.submitButton) && !isClickAction a

/-- Every whitespace character of the list is a plain space. -/
def SpacesOk (l : List Char) : Prop := ∀ c ∈ l, isPySpace c = true → c = ' '

/-- No two adjacent whitespace characters. -/
def NoTwoSpaces (l : List Char) : Prop :=
  List.Chain' (fun a b => ¬(isPySpace a = true ∧ isPySpace b = true)) l

/-- Invariant of the scraping state: collected URLs are distinct and all
recorded in the seen-set. -/
def ScrapeInv (st : List JobCard × List String) : Prop :=
  (cardUrls st.1).Nodup ∧ ∀ u ∈ cardUrls st.1, u ∈ st.2

/-! ### Character-level lemmas -/

theorem toLower_toNat_of_upper {c : Char} (h1 : 65 ≤ c.toNat) (h2 : c.toNat ≤ 90) :
    (Char.toLower c).toNat = c.toNat + 32 := by
  unfold Char.toLower
  rw [if_pos ⟨h1, h2⟩]
  have hv : (c.toNat + 32).isValidChar := Or.inl (by omega)
  rw [Char.ofNat, dif_pos hv]
  rfl

theorem toLower_eq_self {c : Char} (h : ¬(65 ≤ c.toNat ∧ c.toNat ≤ 90)) :
    Char.toLower c = c := by
  unfold Char.toLower
  rw [if_neg h]

theorem toLower_not_upper (c : Char) :
    ¬(65 ≤ (Char.toLower c).toNat ∧ (Char.toLower c).toNat ≤ 90) := by
  by_cases h : 65 ≤ c.toNat ∧ c.toNat ≤ 90
  · rw [toLower_toNat_of_upper h.1 h.2]
    omega
  · rw [toLower_eq_self h]
    exact h

theorem toLower_idem (c : Char) : Char.toLower (Char.toLower c) = Char.toLower c :=
  toLower_eq_self (toLower_not_upper c)

theorem isPySpace_toLower (c : Char) : isPySpace (Char.toLower c) = isPySpace c := by
  by_cases h : 65 ≤ c.toNat ∧ c.toNat ≤ 90
  · have ht := toLower_toNat_of_upper h.1 h.2
    have e1 : isPySpace (Char.toLower c) = false := by
      simp only [isPySpace, Bool.or_eq_false_iff, beq_eq_false_iff_ne, ne_eq, ht]
      omega
    have e2 : isPySpace c = false := by
      simp only [isPySpace, Bool.or_eq_false_iff, beq_eq_false_iff_ne, ne_eq]
      omega
    rw [e1, e2]
  · rw [toLower_eq_self h]

theorem not_space_of_alnum {c : Char} (h : isAlnumCI c = true) : isPySpace c = false := by
  simp only [isAlnumCI, Bool.or_eq_true, Bool.and_eq_true, decide_eq_true_eq] at h
  simp only [isPySpace, Bool.or_eq_false_iff, beq_eq_false_iff_ne, ne_eq]
  omega

theorem not_space_of_not_trail {c : Char} (h : isTrailStripChar c = false) :
    isPySpace c = false := by
  simp only [isTrailStripChar, Bool.or_eq_false_iff] at h
  exact h.1.1.1.1

/-! ### List-level toolkit for the normalizer -/

theorem headP_dropWhile {p : Char → Bool} {l : List Char} {c : Char}
    (h : (l.dropWhile p).head? = some c) : p c = false := by
  have hw := List.head?_dropWhile_not p l
  rw [h] at hw
  exact hw

theorem dropWhile_eq_self_of_head {p : Char → Bool} {l : List Char}
    (h : ∀ c, l.head? = some c → p c = false) : l.dropWhile p = l := by
  cases l with
  | nil => rfl
  | cons a t =>
    have ha : p a = false := h a rfl
    simp [List.dropWhile_cons, ha]

theorem rdropWhile_eq_self_of_last {p : Char → Bool} {l : List Char}
    (h : ∀ c, l.getLast? = some c → p c = false) : l.rdropWhile p = l := by
  rw [List.rdropWhile_eq_self_iff]
  intro hl
  have := h (l.getLast hl) (List.getLast?_eq_getLast l hl)
  simp [this]

theorem rdropWhile_lastP {p : Char → Bool} {l : List Char} {c : Char}
    (h : (l.rdropWhile p).getLast? = some c) : p c = false := by
  have hne : l.rdropWhile p ≠ [] := by
    intro e
    rw [e] at h
    exact Option.noConfusion h
  have hn := List.rdropWhile_last_not p l hne
  have he : (l.rdropWhile p).getLast? = some ((l.rdropWhile p).getLast hne) :=
    List.getLast?_eq_getLast _ hne
  rw [h] at he
  have : c = (l.rdropWhile p).getLast hne := Option.some.inj he
  subst this
  simp at hn
  exact hn

theorem getLast?_dropWhile_of_ne_nil {p : Char → Bool} {l : List Char}
    (h : l.dropWhile p ≠ []) : (l.dropWhile p).getLast? = l.getLast? := by
  conv_rhs => rw [← List.takeWhile_append_dropWhile p l]
  rw [List.getLast?_append]
  cases hx : (l.dropWhile p).getLast? with
  | none => exact absurd (List.getLast?_eq_none_iff.mp hx) h
  | some d => rfl

theorem head?_rdropWhile_of_ne_nil {p : Char → Bool} {l : List Char}
    (h : l.rdropWhile p ≠ []) : (l.rdropWhile p).head? = l.head? := by
  obtain ⟨t, ht⟩ := List.rdropWhile_prefix p l
  conv_rhs => rw [← ht]
  rw [List.head?_append]
  cases hx : (l.rdropWhile p).head? with
  | none => exact absurd (List.head?_eq_none_iff.mp hx) h
  | some d => rfl

theorem mem_dropWhile_sub {p : Char → Bool} {l : List Char} {c : Char}
    (h : c ∈ l.dropWhile p) : c ∈ l :=
  (List.dropWhile_sublist p).subset h

theorem mem_rdropWhile_sub {p : Char → Bool} {l : List Char} {c : Char}
    (h : c ∈ l.rdropWhile p) : c ∈ l :=
  (List.IsPrefix.sublist (List.rdropWhile_prefix p l)).subset h

theorem mem_pyStrip_sub {l : List Char} {c : Char} (h : c ∈ pyStripL l) : c ∈ l :=
  mem_dropWhile_sub (mem_rdropWhile_sub h)

theorem pyStrip_eq_self {l : List Char}
    (hh : ∀ c, l.head? = some c → isPySpace c = false)
    (hl : ∀ c, l.getLast? = some c → isPySpace c = false) : pyStripL l = l := by
  unfold pyStripL
  rw [dropWhile_eq_self_of_head hh, rdropWhile_eq_self_of_last hl]

theorem pyStrip_head_keep {l : List Char} {c : Char} (h : l.head? = some c)
    (hc : isPySpace c = false) : (pyStripL l).head? = some c := by
  unfold pyStripL
  have hid : l.dropWhile isPySpace = l := by
    apply dropWhile_eq_self_of_head
    intro d hd
    rw [h] at hd
    cases hd
    exact hc
  rw [hid]
  have hne : l.rdropWhile isPySpace ≠ [] := by
    rw [ne_eq, List.rdropWhile_eq_nil_iff]
    intro hall
    have := hall c (List.mem_of_mem_head? (by rw [h]; exact rfl))
    rw [hc] at this
    exact Bool.noConfusion this
  rw [head?_rdropWhile_of_ne_nil hne]
  exact h

theorem pyStrip_last_keep {l : List Char} {c : Char} (h : l.getLast? = some c)
    (hc : isPySpace c = false) : (pyStripL l).getLast? = some c := by
  unfold pyStripL
  have hne : l.dropWhile isPySpace ≠ [] := by
    rw [ne_eq, List.dropWhile_eq_nil_iff]
    intro hall
    have := hall c (List.mem_of_mem_getLast? (by rw [h]; exact rfl))
    rw [hc] at this
    exact Bool.noConfusion this
  have h1 : (l.dropWhile isPySpace).getLast? = some c := by
    rw [getLast?_dropWhile_of_ne_nil hne]
    exact h
  have hid : (l.dropWhile isPySpace).rdropWhile isPySpace = l.dropWhile isPySpace := by
    apply rdropWhile_eq_self_of_last
    intro d hd
    rw [h1] at hd
    cases hd
    exact hc
  rw [hid]
  exact h1

/-! ### Collapse lemmas -/

theorem mem_collapseAux {c : Char} : ∀ (l : List Char) (b : Bool),
    c ∈ collapseAux b l → c ∈ l ∨ c = ' ' := by
  intro l
  induction l with
  | nil => intro b h; simp [collapseAux] at h
  | cons a t ih =>
    intro b h
    unfold collapseAux at h
    by_cases ha : isPySpace a = true
    · rw [if_pos ha] at h
      cases b with
      | true =>
        simp at h
        rcases ih true h with h' | h'
        · exact Or.inl (List.mem_cons_of_mem a h')
        · exact Or.inr h'
      | false =>
        simp at h
        rcases h with h | h
        · exact Or.inr h
        · rcases ih true h with h' | h'
          · exact Or.inl (List.mem_cons_of_mem a h')
          · exact Or.inr h'
    · rw [if_neg ha] at h
      rcases List.mem_cons.mp h with h | h
      · exact Or.inl (h ▸ List.mem_cons_self a t)
      · rcases ih false h with h' | h'
        · exact Or.inl (List.mem_cons_of_mem a h')
        · exact Or.inr h'

theorem head?_collapseAux_true_not_space : ∀ (l : List Char) (c : Char),
    (collapseAux true l).head? = some c → isPySpace c = false := by
  intro l
  induction l with
  | nil => intro c h; simp [collapseAux] at h
  | cons a t ih =>
    intro c h
    unfold collapseAux at h
    by_cases ha : isPySpace a = true
    · rw [if_pos ha] at h
      simp at h
      exact ih c h
    · rw [if_neg ha] at h
      have : a = c := by simpa using h
      subst this
      simpa using ha

theorem collapseAux_true_eq_false_of_head {l : List Char}
    (h : ∀ c, l.head? = some c → isPySpace c = false) :
    collapseAux true l = collapseAux false l := by
  cases l with
  | nil => rfl
  | cons a t =>
    have ha := h a rfl
    unfold collapseAux
    rw [if_neg (by simp [ha]), if_neg (by simp [ha])]

theorem head?_collapseAux_keep {l : List Char} {c : Char} (hc : isPySpace c = false)
    (h : l.head? = some c) : ∀ b, (collapseAux b l).head? = some c := by
  intro b
  cases l with
  | nil => exact Option.noConfusion h
  | cons a t =>
    have : a = c := Option.some.inj h
    subst this
    unfold collapseAux
    rw [if_neg (by simp [hc])]
    rfl

theorem collapseAux_cons_space_true {a : Char} {t : List Char} (ha : isPySpace a = true) :
    collapseAux true (a :: t) = collapseAux true t := by
  simp [collapseAux, ha]

theorem collapseAux_cons_space_false {a : Char} {t : List Char} (ha : isPySpace a = true) :
    collapseAux false (a :: t) = ' ' :: collapseAux true t := by
  simp [collapseAux, ha]

theorem collapseAux_cons_nonspace {a : Char} {t : List Char} {b : Bool}
    (ha : isPySpace a = false) :
    collapseAux b (a :: t) = a :: collapseAux false t := by
  simp [collapseAux, ha]

theorem getLast?_cons_ne_nil {α : Type} {a : α} {m : List α} (h : m ≠ []) :
    (a :: m).getLast? = m.getLast? := by
  rw [List.getLast?_cons]
  cases hx : m.getLast? with
  | none => exact absurd (List.getLast?_eq_none_iff.mp hx) h
  | some d => rfl

theorem getLast?_collapseAux_keep {c : Char} (hc : isPySpace c = false) :
    ∀ (l : List Char) (b : Bool), l.getLast? = some c →
      (collapseAux b l).getLast? = some c := by
  intro l
  induction l with
  | nil => intro b h; exact Option.noConfusion h
  | cons a t ih =>
    intro b h
    cases t with
    | nil =>
      have : a = c := by simpa using h
      subst this
      rw [collapseAux_cons_nonspace hc]
      rfl
    | cons a2 t2 =>
      have ht : (a2 :: t2).getLast? = some c := by
        rw [List.getLast?_cons_cons] at h
        exact h
      have h2t : collapseAux true (a2 :: t2) ≠ [] := by
        intro e
        have h2 := ih true ht
        rw [e] at h2
        exact Option.noConfusion h2
      have h2f : collapseAux false (a2 :: t2) ≠ [] := by
        intro e
        have h2 := ih false ht
        rw [e] at h2
        exact Option.noConfusion h2
      by_cases ha : isPySpace a = true
      · cases b with
        | true =>
          rw [collapseAux_cons_space_true ha]
          exact ih true ht
        | false =>
          rw [collapseAux_cons_space_false ha, getLast?_cons_ne_nil h2t]
          exact ih true ht
      · rw [collapseAux_cons_nonspace (by simpa using ha), getLast?_cons_ne_nil h2f]
        exact ih false ht

/-! ### Well-spacedness: the collapse output and its fixed points -/

theorem spacesOk_collapseAux : ∀ (l : List Char) (b : Bool), SpacesOk (collapseAux b l) := by
  intro l
  induction l with
  | nil => intro b; intro c hc; simp [collapseAux] at hc
  | cons a t ih =>
    intro b c hc hsp
    by_cases ha : isPySpace a = true
    · cases b with
      | true =>
        rw [collapseAux_cons_space_true ha] at hc
        exact ih true c hc hsp
      | false =>
        rw [collapseAux_cons_space_false ha] at hc
        rcases List.mem_cons.mp hc with h | h
        · exact h
        · exact ih true c h hsp
    · have ha' : isPySpace a = false := by simpa using ha
      rw [collapseAux_cons_nonspace ha'] at hc
      rcases List.mem_cons.mp hc with h | h
      · subst h
        rw [ha'] at hsp
        exact Bool.noConfusion hsp
      · exact ih false c h hsp

theorem noTwoSpaces_collapseAux : ∀ (l : List Char) (b : Bool),
    NoTwoSpaces (collapseAux b l) := by
  intro l
  induction l with
  | nil => intro b; simp [collapseAux, NoTwoSpaces]
  | cons a t ih =>
    intro b
    by_cases ha : isPySpace a = true
    · cases b with
      | true =>
        rw [collapseAux_cons_space_true ha]
        exact ih true
      | false =>
        rw [collapseAux_cons_space_false ha]
        rw [NoTwoSpaces, List.chain'_cons']
        refine ⟨?_, ih true⟩
        intro y hy
        have : isPySpace y = false :=
          head?_collapseAux_true_not_space t y (by simpa using hy)
        intro hcon
        rw [this] at hcon
        exact Bool.noConfusion hcon.2
    · have ha' : isPySpace a = false := by simpa using ha
      rw [collapseAux_cons_nonspace ha']
      rw [NoTwoSpaces, List.chain'_cons']
      refine ⟨?_, ih false⟩
      intro y _ hcon
      rw [ha'] at hcon
      exact Bool.noConfusion hcon.1

theorem collapseAux_eq_self : ∀ (l : List Char), SpacesOk l → NoTwoSpaces l →
    collapseAux false l = l := by
  intro l
  induction l with
  | nil => intro _ _; rfl
  | cons a t ih =>
    intro hok hns
    have htok : SpacesOk t := fun c hc => hok c (List.mem_cons_of_mem a hc)
    have htns : NoTwoSpaces t := List.Chain'.tail hns
    by_cases ha : isPySpace a = true
    · have haa : a = ' ' := hok a (List.mem_cons_self a t) ha
      rw [collapseAux_cons_space_false ha, ← haa]
      have hhead : ∀ c, t.head? = some c → isPySpace c = false := by
        intro c hc
        rw [NoTwoSpaces, List.chain'_cons'] at hns
        have := hns.1 c (by rw [hc]; exact rfl)
        by_contra hcon
        exact this ⟨ha, by simpa using hcon⟩
      rw [collapseAux_true_eq_false_of_head hhead, ih htok htns]
    · have ha' : isPySpace a = false := by simpa using ha
      rw [collapseAux_cons_nonspace ha', ih htok htns]

/-! ### Invariants of the normalizer output -/

theorem lastP_dropWhile {P : Char → Prop} {p : Char → Bool} {l : List Char}
    (h : ∀ c, l.getLast? = some c → P c) :
    ∀ c, (l.dropWhile p).getLast? = some c → P c := by
  intro c hc
  have hne : l.dropWhile p ≠ [] := by
    intro e
    rw [e] at hc
    exact Option.noConfusion hc
  rw [getLast?_dropWhile_of_ne_nil hne] at hc
  exact h c hc

theorem lastP_trail_pyStrip {l : List Char}
    (h : ∀ c, l.getLast? = some c → isTrailStripChar c = false) :
    ∀ c, (pyStripL l).getLast? = some c → isTrailStripChar c = false := by
  unfold pyStripL
  have h1 : ∀ c, (l.dropWhile isPySpace).getLast? = some c → isTrailStripChar c = false :=
    lastP_dropWhile h
  have hid : (l.dropWhile isPySpace).rdropWhile isPySpace = l.dropWhile isPySpace :=
    rdropWhile_eq_self_of_last (fun c hc => not_space_of_not_trail (h1 c hc))
  rw [hid]
  exact h1

theorem lastP_trail_collapse {l : List Char}
    (h : ∀ c, l.getLast? = some c → isTrailStripChar c = false) :
    ∀ c, (collapseWS l).getLast? = some c → isTrailStripChar c = false := by
  intro c hc
  cases hl : l.getLast? with
  | none =>
    have : l = [] := List.getLast?_eq_none_iff.mp hl
    subst this
    simp [collapseWS, collapseAux] at hc
  | some d =>
    have hd := h d hl
    have he : (collapseWS l).getLast? = some d :=
      getLast?_collapseAux_keep (not_space_of_not_trail hd) l false hl
    rw [he] at hc
    cases hc
    exact hd

theorem headP_alnum_pyStrip {l : List Char}
    (h : ∀ c, l.head? = some c → isAlnumCI c = true) :
    ∀ c, (pyStripL l).head? = some c → isAlnumCI c = true := by
  unfold pyStripL
  have hid : l.dropWhile isPySpace = l :=
    dropWhile_eq_self_of_head (fun c hc => not_space_of_alnum (h c hc))
  rw [hid]
  intro c hc
  have hne : l.rdropWhile isPySpace ≠ [] := by
    intro e
    rw [e] at hc
    exact Option.noConfusion hc
  rw [head?_rdropWhile_of_ne_nil hne] at hc
  exact h c hc

theorem headP_alnum_collapse {l : List Char}
    (h : ∀ c, l.head? = some c → isAlnumCI c = true) :
    ∀ c, (collapseWS l).head? = some c → isAlnumCI c = true := by
  intro c hc
  cases hl : l.head? with
  | none =>
    have : l = [] := List.head?_eq_none_iff.mp hl
    subst this
    simp [collapseWS, collapseAux] at hc
  | some d =>
    have hd := h d hl
    have he : (collapseWS l).head? = some d :=
      head?_collapseAux_keep (not_space_of_alnum hd) hl false
    rw [he] at hc
    cases hc
    exact hd

theorem spacesOk_of_sub {l m : List Char} (hsub : ∀ c, c ∈ l → c ∈ m)
    (h : SpacesOk m) : SpacesOk l := fun c hc => h c (hsub c hc)

theorem noTwoSpaces_pyStrip {l : List Char} (h : NoTwoSpaces l) :
    NoTwoSpaces (pyStripL l) := by
  unfold pyStripL
  have h1 : NoTwoSpaces (l.dropWhile isPySpace) :=
    List.Chain'.suffix h ⟨l.takeWhile isPySpace, List.takeWhile_append_dropWhile isPySpace l⟩
  have hp := List.rdropWhile_prefix isPySpace (l.dropWhile isPySpace)
  exact List.Chain'.prefix h1 hp

/-- The four-stage pipeline of `normalizeList`, written out. -/
theorem normalizeList_eq (l : List Char) :
    normalizeList l =
      pyStripL (collapseWS (pyStripL (List.dropWhile (fun c => !isAlnumCI c)
        (pyStripL (List.rdropWhile isTrailStripChar (pyLowerL l)))))) := rfl

theorem normalizeList_chars_lower (l : List Char) :
    ∀ c ∈ normalizeList l, Char.toLower c = c := by
  intro c hc
  rw [normalizeList_eq] at hc
  have h1 := mem_pyStrip_sub hc
  rcases mem_collapseAux _ false h1 with h2 | h2
  · have h6 := mem_rdropWhile_sub (mem_pyStrip_sub (mem_dropWhile_sub (mem_pyStrip_sub h2)))
    rcases List.mem_map.mp h6 with ⟨d, _, hd⟩
    rw [← hd]
    exact toLower_idem d
  · rw [h2]
    decide

theorem normalizeList_head_alnum (l : List Char) :
    ∀ c, (normalizeList l).head? = some c → isAlnumCI c = true := by
  rw [normalizeList_eq]
  have h0 : ∀ c, ((pyStripL (List.rdropWhile isTrailStripChar (pyLowerL l))).dropWhile
      (fun c => !isAlnumCI c)).head? = some c → isAlnumCI c = true := by
    intro c hc
    have := headP_dropWhile hc
    simpa using this
  exact headP_alnum_pyStrip (headP_alnum_collapse (headP_alnum_pyStrip h0))

theorem normalizeList_last_trail (l : List Char) :
    ∀ c, (normalizeList l).getLast? = some c → isTrailStripChar c = false := by
  rw [normalizeList_eq]
  have h0 : ∀ c, (List.rdropWhile isTrailStripChar (pyLowerL l)).getLast? = some c →
      isTrailStripChar c = false := fun c hc => rdropWhile_lastP hc
  exact lastP_trail_pyStrip (lastP_trail_collapse (lastP_trail_pyStrip
    (lastP_dropWhile (lastP_trail_pyStrip h0))))

theorem normalizeList_spacesOk (l : List Char) : SpacesOk (normalizeList l) := by
  rw [normalizeList_eq]
  exact spacesOk_of_sub (fun c hc => mem_pyStrip_sub hc) (spacesOk_collapseAux _ false)

theorem normalizeList_noTwoSpaces (l : List Char) : NoTwoSpaces (normalizeList l) := by
  rw [normalizeList_eq]
  exact noTwoSpaces_pyStrip (noTwoSpaces_collapseAux _ false)

theorem pyLower_eq_self : ∀ {r : List Char}, (∀ c ∈ r, Char.toLower c = c) →
    pyLowerL r = r := by
  intro r
  induction r with
  | nil => intro _; rfl
  | cons a t ih =>
    intro h
    unfold pyLowerL at *
    rw [List.map_cons, h a (List.mem_cons_self a t),
      ih (fun c hc => h c (List.mem_cons_of_mem a hc))]

theorem normalizeList_fixed {r : List Char}
    (h1 : ∀ c ∈ r, Char.toLower c = c)
    (h2 : ∀ c, r.head? = some c → isAlnumCI c = true)
    (h3 : ∀ c, r.getLast? = some c → isTrailStripChar c = false)
    (h4 : SpacesOk r) (h5 : NoTwoSpaces r) :
    normalizeList r = r := by
  rw [normalizeList_eq]
  have hh : ∀ c, r.head? = some c → isPySpace c = false :=
    fun c hc => not_space_of_alnum (h2 c hc)
  have hl : ∀ c, r.getLast? = some c → isPySpace c = false :=
    fun c hc => not_space_of_not_trail (h3 c hc)
  have e1 : r.rdropWhile isTrailStripChar = r := rdropWhile_eq_self_of_last h3
  have e2 : pyStripL r = r := pyStrip_eq_self hh hl
  have e3 : r.dropWhile (fun c => !isAlnumCI c) = r :=
    dropWhile_eq_self_of_head (fun c hc => by simp [h2 c hc])
  have e4 : collapseWS r = r := collapseAux_eq_self r h4 h5
  rw [pyLower_eq_self h1, e1, e2, e3, e2, e4, e2]

theorem normalizeList_idem (l : List Char) :
    normalizeList (normalizeList l) = normalizeList l :=
  @normalizeList_fixed (normalizeList l) (normalizeList_chars_lower l)
    (normalizeList_head_alnum l) (normalizeList_last_trail l)
    (normalizeList_spacesOk l) (normalizeList_noTwoSpaces l)

theorem data_mk (l : List Char) : (String.mk l).data = l := rfl

/-- Claim C7: the Text Normalizer is idempotent - for every string `x`,
`normalize(normalize(x))` equals `normalize(x)`. -/
theorem claim_C7_normalize_idempotent (s : String) :
    normalize_text (normalize_text s) = normalize_text s := by
  unfold normalize_text
  rw [data_mk, normalizeList_idem]

/-- Claim C6 counterexample: the two displayed variants do NOT normalize to
equal strings.  The trailing-run regex of `normalize_text` stops at the `d` of
`(m/w/d)`, so only `") - "` is removed and the gender marker survives:
`normalize("  Werkstudent (m/w/d) - ")` is `"werkstudent (m/w/d"`, while
`normalize("WERKSTUDENT")` is `"werkstudent"`. -/
theorem claim_C6_normalize_counterexample :
    normalize_text "  Werkstudent (m/w/d) - " ≠ normalize_text "WERKSTUDENT" := by
  decide

/-- Claim C6 amended: normalization maps case/spacing/trailing-punctuation
variants of a title without an embedded parenthesized marker to equal strings
(`"  Werkstudent - "` and `"WERKSTUDENT"` both normalize to `"werkstudent"`),
but a variant carrying `"(m/w/d)"` keeps the marker text: it normalizes to
`"werkstudent (m/w/d"`, which differs from `normalize("WERKSTUDENT")`. -/
theorem claim_C6_amended_normalize :
    normalize_text "  Werkstudent - " = normalize_text "WERKSTUDENT" ∧
    normalize_text "WERKSTUDENT" = "werkstudent" ∧
    normalize_text "  Werkstudent (m/w/d) - " = "werkstudent (m/w/d" := by
  refine ⟨by decide, by decide, by decide⟩

/-! ### Claim C3: the computed start date -/

theorem computeStartDate_spec (y m d : Nat) (h1 : 1 ≤ m) (h2 : m ≤ 12) :
    computeStartDate { year := y, month := m, day := d } =
      { year := if m ≤ 10 then y else y + 1,
        month := if m ≤ 10 then m + 2 else m - 10,
        day := 1 } := by
  interval_cases m <;> simp [computeStartDate, replaceDay1, addOneMonth]

/-- Claim C3 counterexample: for today = March 15 the source computes
`today.replace(day=1) + relativedelta(months=1) + relativedelta(months=1)`,
i.e. May 1 (two months after March), not the June 1 stated by the claim;
the field is filled with `"01.05.2025"`. -/
theorem claim_C3_march_counterexample :
    computeStartDate { year := 2025, month := 3, day := 15 } =
      { year := 2025, month := 5, day := 1 } ∧
    computeStartDate { year := 2025, month := 3, day := 15 } ≠
      { year := 2025, month := 6, day := 1 } ∧
    formatDMY (computeStartDate { year := 2025, month := 3, day := 15 }) = "01.05.2025" := by
  refine ⟨by decide, by decide, by decide⟩

/-- Claim C3 amended: the value written into a visible start-date field is the
first day of the month two months after the current month (with year
rollover), formatted as day.month.year; in particular March 15 yields May 1. -/
theorem claim_C3_amended_start_date (env : EnvModel) (pg : PageModel)
    (h1 : 1 ≤ env.today.month) (h2 : env.today.month ≤ 12)
    (hvis : pg.startDateVisible = true) :
    (computeStartDate env.today).day = 1 ∧
    (computeStartDate env.today).month =
      (if env.today.month ≤ 10 then env.today.month + 2 else env.today.month - 10) ∧
    (computeStartDate env.today).year =
      (if env.today.month ≤ 10 then env.today.year else env.today.year + 1) ∧
    fillStartDate env pg =
      (1, [FormAction.fillField Target.startDate (formatDMY (computeStartDate env.today))]) := by
  have hspec := computeStartDate_spec env.today.year env.today.month env.today.day h1 h2
  have heta : ({ year := env.today.year, month := env.today.month, day := env.today.day } :
      PyDate) = env.today := rfl
  rw [heta] at hspec
  refine ⟨by rw [hspec], by rw [hspec], by rw [hspec], ?_⟩
  unfold fillStartDate
  rw [hvis]
  simp

theorem claim_C3_witness :
    (computeStartDate envMarch.today).day = 1 ∧
    (computeStartDate envMarch.today).month =
      (if envMarch.today.month ≤ 10 then envMarch.today.month + 2
       else envMarch.today.month - 10) ∧
    (computeStartDate envMarch.today).year =
      (if envMarch.today.month ≤ 10 then envMarch.today.year else envMarch.today.year + 1) ∧
    fillStartDate envMarch { pgEmailOnly with startDateVisible := true } =
      (1, [FormAction.fillField Target.startDate
        (formatDMY (computeStartDate envMarch.today))]) :=
  claim_C3_amended_start_date envMarch { pgEmailOnly with startDateVisible := true }
    (by decide) (by decide) (by decide)

/-- Claim C1 (code bug): on a page with no visible primary-apply candidate but
with a visible job link matching the target title, the source never reaches
the job-link search: the fallback that would call `find_job_link` is absent
from `apply_to_job` (its `else` branch only logs), so `job_link_element`
remains `None`, form filling is skipped and the attempt fails - even though
`find_job_link` itself would have located the link, as the last conjunct
shows.  The final conjunct records that no execution path of
`apply_to_job_resolve` invokes `find_job_link` at all. -/
theorem claim_C1_job_link_fallback_unreachable :
    (apply_to_job_resolve pgNoApplyButton).clickedPrimaryApply = false ∧
    (apply_to_job_resolve pgNoApplyButton).jobLinkElement = none ∧
    (apply_to_job_resolve pgNoApplyButton).formFillingInvoked = false ∧
    find_job_link pgNoApplyButton.linkContext "Werkstudent Data Analysis" = some wsLink ∧
    ∀ pg : CareerPageM, (apply_to_job_resolve pg).findJobLinkInvoked = false := by
  refine ⟨by decide, by decide, by decide, by decide, fun pg => rfl⟩

/-- Claim C2 (code bug): `fill_application_form` computes `filled_count`
internally (here the email-only page yields count 1 with exactly the email
fill action) but ends without a `return` statement, so the caller's
`form_filled = fill_application_form(page, applicant_data)` receives `None`
rather than the count - for every page and profile. -/
theorem claim_C2_fill_returns_none :
    (fill_application_form envMarch pgEmailOnly dataEmailOnly).filledCount = 1 ∧
    (fill_application_form envMarch pgEmailOnly dataEmailOnly).actions =
      [FormAction.fillField Target.email "iasimsan@gmail.com"] ∧
    (fill_application_form envMarch pgEmailOnly dataEmailOnly).retval = none ∧
    (fill_application_form envMarch pgEmailOnly dataEmailOnly).retval ≠
      some (fill_application_form envMarch pgEmailOnly dataEmailOnly).filledCount ∧
    ∀ (env : EnvModel) (pg : PageModel) (data : ApplicantData),
      (fill_application_form env pg data).retval = none := by
  refine ⟨by decide, by decide, by decide, by decide, fun env pg data => rfl⟩

/-! ### Claim C5: mandatory-field detection -/

theorem starIfVisible_eq_false {p : Probe} (h : probeNoStar p = true) :
    starIfVisible p = false := by
  cases p with
  | vis t =>
    simp [probeNoStar] at h
    simp [starIfVisible, h]
  | invisible => rfl
  | timeoutErr => rfl
  | otherErr => rfl

theorem idBlock_eq_false {e : ElementModel} (h1 : probeNoStar e.labelForId = true)
    (h2 : probeNoStar e.siblingSpanForId = true) : idBlock e = false := by
  unfold idBlock
  cases hp : e.labelForId with
  | vis t =>
    rw [hp] at h1
    simp [probeNoStar] at h1
    simp [h1, starIfVisible_eq_false h2]
  | invisible => exact starIfVisible_eq_false h2
  | timeoutErr => rfl
  | otherErr => rfl

theorem nameBlock_eq_false {e : ElementModel}
    (h : probeNoStar e.siblingSpanForName = true) : nameBlock e = false := by
  unfold nameBlock
  cases hp : e.labelForName with
  | vis t => exact starIfVisible_eq_false h
  | invisible => rfl
  | timeoutErr => rfl
  | otherErr => rfl

/-- Claim C5 counterexample: a control carrying a bare `required` attribute
(read back as the empty string, as the DOM reports boolean attributes) and no
associated label is classified as NOT mandatory, because the source tests the
attribute with Python truthiness (`if element.get_attribute('required'):`)
rather than for presence. -/
theorem claim_C5_bare_required_counterexample :
    eBareRequired.requiredAttr = some "" ∧
    is_field_mandatory eBareRequired = false := by
  refine ⟨rfl, by decide⟩

/-- Claim C5 amended: `is_field_mandatory` returns true when the `required`
attribute is present with a non-empty (truthy) value even if no label exists;
it returns false when no signal is found (required attribute not truthy,
`aria-required` not `"true"`, and no visible asterisk in any of the probed
labels/spans - probes that time out or raise degrade to not-found); and it is
total, never propagating a lookup failure. -/
theorem claim_C5_amended_mandatory (e : ElementModel) :
    (pyTruthy e.requiredAttr = true → is_field_mandatory e = true) ∧
    (noMandatorySignal e = true → is_field_mandatory e = false) := by
  constructor
  · intro h
    unfold is_field_mandatory
    rw [if_pos h]
  · intro h
    unfold noMandatorySignal at h
    simp only [Bool.and_eq_true, Bool.not_eq_true'] at h
    obtain ⟨⟨⟨⟨⟨⟨hreq, haria⟩, hlid⟩, hsid⟩, hlnm⟩, hsnm⟩, hanc⟩ := h
    unfold is_field_mandatory
    rw [if_neg (by simp [hreq]), if_neg (by simp [haria]),
      if_neg (by simp [idBlock_eq_false hlid hsid]),
      if_neg (by simp [nameBlock_eq_false hsnm]),
      if_neg (by simp [ancestorBlock, starIfVisible_eq_false hanc])]

theorem claim_C5_witness :
    is_field_mandatory eValuedRequired = true ∧
    is_field_mandatory eNoSignals = false :=
  ⟨(claim_C5_amended_mandatory eValuedRequired).1 (by decide),
   (claim_C5_amended_mandatory eNoSignals).2 (by decide)⟩

/-- Claim C8: the title filter rejects every candidate title lacking both a
"werkstudent" and a "working student" substring (case-insensitively),
regardless of the suggestion's keywords. -/
theorem claim_C8_title_requires_werkstudent (T S : String)
    (h1 : containsSubL (pyLowerL T.data) "werkstudent".data = false)
    (h2 : containsSubL (pyLowerL T.data) "working student".data = false) :
    title_matches_suggestion T S = false := by
  unfold title_matches_suggestion
  split
  · rfl
  · rw [if_pos (by simp [h1, h2])]

theorem claim_C8_witness :
    title_matches_suggestion "Data Analyst" "Werkstudent Data" = false :=
  claim_C8_title_requires_werkstudent "Data Analyst" "Werkstudent Data"
    (by decide) (by decide)

/-! ### Claim C4: no submission is ever invoked -/

theorem salutationScan_benign (pref : String) :
    ∀ (opts : List OptionElem) (act : FormAction),
      salutationScan pref opts = some act → benignAction act = true := by
  intro opts
  induction opts with
  | nil => intro act h; simp [salutationScan] at h
  | cons o rest ih =>
    intro act h
    unfold salutationScan at h
    repeat' split at h
    all_goals first
      | (cases h; rfl)
      | (exact ih act h)
      | (simp at h)

theorem otherUploadsLoop_benign :
    ∀ (fis : List FileInputElem) (i cnt : Nat),
      (otherUploadsLoop i cnt fis).2.all benignAction = true := by
  intro fis
  induction fis with
  | nil => intro i cnt; rfl
  | cons fi rest ih =>
    intro i cnt
    unfold otherUploadsLoop
    repeat' split
    all_goals first
      | exact ih _ _
      | (simp only [List.all_cons, Bool.and_eq_true]; exact ⟨rfl, ih _ _⟩)

theorem fillSalutation_benign (pg : PageModel) (data : ApplicantData) :
    (fillSalutation pg data).2.all benignAction = true := by
  unfold fillSalutation
  repeat' split
  all_goals first
    | rfl
    | (rename_i act hscan
       simp only [List.all_cons, List.all_nil, Bool.and_true]
       exact salutationScan_benign _ _ act hscan)

theorem fillTextField_benign (vis : Bool) (t : Target) (val : Option String)
    (hbt : (t == Target.submitButton) = false) :
    (fillTextField vis t val).2.all benignAction = true := by
  unfold fillTextField
  repeat' split
  all_goals simp [benignAction, actionTarget, isClickAction, hbt]

theorem fillResume_benign (env : EnvModel) (pg : PageModel) (data : ApplicantData) :
    (fillResume env pg data).2.all benignAction = true := by
  unfold fillResume
  repeat' split
  all_goals rfl

theorem fillStartDate_benign (env : EnvModel) (pg : PageModel) :
    (fillStartDate env pg).2.all benignAction = true := by
  unfold fillStartDate
  split
  · rfl
  · rfl

theorem fillSalary_benign (pg : PageModel) (data : ApplicantData) :
    (fillSalary pg data).2.all benignAction = true := by
  unfold fillSalary
  repeat' split
  all_goals rfl

theorem fillSource_benign (pg : PageModel) :
    (fillSource pg).2.all benignAction = true := by
  unfold fillSource
  repeat' split
  all_goals rfl

theorem fillConsent_benign (pg : PageModel) :
    (fillConsent pg).2.all benignAction = true := by
  unfold fillConsent
  repeat' split
  all_goals rfl

/-- Claim C4: for every page and profile, every action the form pass performs
is a fill/select/upload/check on a non-submit target - no action targets the
submit button and no click (on anything) occurs; the submit button is only
located and logged (the click in the source is commented out). -/
theorem claim_C4_no_submit_action (env : EnvModel) (pg : PageModel) (data : ApplicantData) :
    (fill_application_form env pg data).actions.all benignAction = true := by
  unfold fill_application_form
  simp only [List.all_append, Bool.and_eq_true]
  refine ⟨⟨⟨⟨⟨⟨⟨⟨⟨⟨?_, ?_⟩, ?_⟩, ?_⟩, ?_⟩, ?_⟩, ?_⟩, ?_⟩, ?_⟩, ?_⟩, ?_⟩
  · exact fillSalutation_benign pg data
  · exact fillTextField_benign pg.firstNameVisible Target.firstName data.first_name rfl
  · exact fillTextField_benign pg.lastNameVisible Target.lastName data.last_name rfl
  · exact fillTextField_benign pg.emailVisible Target.email data.email rfl
  · exact fillTextField_benign pg.phoneVisible Target.phone data.phone rfl
  · exact fillResume_benign env pg data
  · exact fillStartDate_benign env pg
  · exact fillSalary_benign pg data
  · exact otherUploadsLoop_benign pg.fileInputs 0 0
  · exact fillSource_benign pg
  · exact fillConsent_benign pg

/-! ### Claim C9: the seen-URL set -/

theorem cardUrls_append (a b : List JobCard) :
    cardUrls (a ++ b) = cardUrls a ++ cardUrls b := by
  unfold cardUrls
  exact List.filterMap_append a b _

theorem pyTruthy_some {u : Option String} (h : pyTruthy u = true) :
    ∃ s, u = some s ∧ s ≠ "" := by
  cases u with
  | none => simp [pyTruthy] at h
  | some s =>
    refine ⟨s, rfl, ?_⟩
    simpa [pyTruthy] using h

theorem scrapeStep_snd_append (st : List JobCard × List String) (ev : JobCard × String) :
    ∃ t, (scrapeStep st ev).2 = st.2 ++ t := by
  unfold scrapeStep
  repeat' split
  all_goals first
    | exact ⟨[ev.1.url.getD ""], rfl⟩
    | exact ⟨[], by simp⟩

theorem scrapeStep_inv (st : List JobCard × List String) (ev : JobCard × String)
    (h : ScrapeInv st) : ScrapeInv (scrapeStep st ev) := by
  unfold scrapeStep
  split
  · exact h
  · rename_i htruthy
    split
    · exact h
    · rename_i hmem
      split
      · have htr : pyTruthy ev.1.url = true := by
          by_contra hc
          exact htruthy (by simp [Bool.not_eq_true] at hc; simp [hc])
        obtain ⟨s, hs, _⟩ := pyTruthy_some htr
        have hu : ev.1.url.getD "" = s := by rw [hs]; rfl
        have hcards : cardUrls [ev.1] = [s] := by
          unfold cardUrls
          simp [List.filterMap, hs]
        constructor
        · rw [cardUrls_append, hcards, List.nodup_append]
          refine ⟨h.1, List.nodup_singleton s, ?_⟩
          intro x hx
          have hx2 := h.2 x hx
          simp only [List.mem_singleton]
          intro he
          subst he
          rw [hu] at hmem
          exact hmem hx2
        · intro x hx
          rw [cardUrls_append, hcards] at hx
          rcases List.mem_append.mp hx with hx | hx
          · exact List.mem_append_left _ (h.2 x hx)
          · apply List.mem_append_right
            rw [hu]
            exact hx
      · exact h

theorem scrapeRun_inv (evs : List (JobCard × String)) : ScrapeInv (scrapeRun evs) := by
  unfold scrapeRun
  have hgen : ∀ st, ScrapeInv st → ScrapeInv (evs.foldl scrapeStep st) := by
    induction evs with
    | nil => intro st h; exact h
    | cons e rest ih => intro st h; exact ih _ (scrapeStep_inv st e h)
  refine hgen ([], []) ⟨List.nodup_nil, ?_⟩
  intro u hu
  simp [cardUrls] at hu

theorem scrapeStep_count_frozen (st : List JobCard × List String) (ev : JobCard × String)
    (u : String) (hu : u ∈ st.2) :
    (cardUrls (scrapeStep st ev).1).count u = (cardUrls st.1).count u := by
  unfold scrapeStep
  split
  · rfl
  · split
    · rfl
    · rename_i hmem
      split
      · rename_i htruthy hfilter
        have htr : pyTruthy ev.1.url = true := by
          by_contra hc
          exact htruthy (by simp [Bool.not_eq_true] at hc; simp [hc])
        obtain ⟨s, hs, _⟩ := pyTruthy_some htr
        have hu2 : ev.1.url.getD "" = s := by rw [hs]; rfl
        have hcards : cardUrls [ev.1] = [s] := by
          unfold cardUrls
          simp [List.filterMap, hs]
        show (cardUrls (st.1 ++ [ev.1])).count u = (cardUrls st.1).count u
        rw [cardUrls_append, hcards, List.count_append]
        have hne : u ≠ s := by
          intro he
          subst he
          rw [hu2] at hmem
          exact hmem hu
        have hz : List.count u [s] = 0 := by
          simp [List.count_cons, hne, Ne.symm hne]
        rw [hz, Nat.add_zero]
      · rfl

/-- Claim C9: along one run of the scraping loop (a fold of the per-card step
over the event sequence) every URL occurs at most once in the collected job
list, the seen-URL set only ever grows (each step appends, never removes),
and a step never appends a record whose URL is already in the seen-set. -/
theorem claim_C9_seen_urls_invariant :
    (∀ evs : List (JobCard × String), (cardUrls (scrapeRun evs).1).Nodup) ∧
    (∀ (st : List JobCard × List String) (ev : JobCard × String),
      ∃ t, (scrapeStep st ev).2 = st.2 ++ t) ∧
    (∀ (st : List JobCard × List String) (ev : JobCard × String) (u : String),
      u ∈ st.2 →
      (cardUrls (scrapeStep st ev).1).count u = (cardUrls st.1).count u) :=
  ⟨fun evs => (scrapeRun_inv evs).1, scrapeStep_snd_append, scrapeStep_count_frozen⟩

theorem claim_C9_witness :
    (cardUrls (scrapeRun [(sampleCard, "Werkstudent")]).1).Nodup ∧
    (∃ t, (scrapeStep ([], ["https://x/1"]) (sampleCard, "Werkstudent")).2 =
        ["https://x/1"] ++ t) ∧
    (cardUrls (scrapeStep ([], ["https://x/1"]) (sampleCard, "Werkstudent")).1).count
        "https://x/1" = (cardUrls ([] : List JobCard)).count "https://x/1" := by
  have h := claim_C9_seen_urls_invariant
  exact ⟨h.1 _, h.2.1 _ _, h.2.2 _ _ "https://x/1" (by simp)⟩

/-! ### Claim C10: the role-suggestion parser -/

theorem containsSubL_iff {hay nd : List Char} :
    containsSubL hay nd = true ↔ ∃ s t, hay = s ++ (nd ++ t) := by
  unfold containsSubL
  rw [List.any_eq_true]
  constructor
  · rintro ⟨i, _, hp⟩
    rw [ List.isPrefixOf_iff_prefix] at hp
    obtain ⟨t, ht⟩ := hp
    refine ⟨hay.take i, t, ?_⟩
    conv_lhs => rw [← List.take_append_drop i hay]
    rw [← ht]
  · rintro ⟨s, t, rfl⟩
    refine ⟨s.length, ?_, ?_⟩
    · rw [List.mem_range]
      simp [List.length_append]
      omega
    · rw [ List.isPrefixOf_iff_prefix, List.drop_left]
      exact ⟨t, rfl⟩

theorem dropWhile_mid {p : Char → Bool} {nd : List Char} (s t : List Char)
    (hh : ∀ c, nd.head? = some c → p c = false) (hne : nd ≠ []) :
    ∃ s2, (s ++ (nd ++ t)).dropWhile p = s2 ++ (nd ++ t) := by
  rw [List.dropWhile_append]
  split
  · cases nd with
    | nil => exact absurd rfl hne
    | cons a m =>
      have ha := hh a rfl
      rw [List.cons_append, List.dropWhile_cons_of_neg (by simp [ha])]
      exact ⟨[], rfl⟩
  · exact ⟨s.dropWhile p, rfl⟩

theorem containsSub_pyStrip {hay nd : List Char} (hne : nd ≠ [])
    (hh : ∀ c, nd.head? = some c → isPySpace c = false)
    (hl : ∀ c, nd.getLast? = some c → isPySpace c = false)
    (h : containsSubL hay nd = true) : containsSubL (pyStripL hay) nd = true := by
  rw [containsSubL_iff] at h ⊢
  obtain ⟨s, t, rfl⟩ := h
  unfold pyStripL
  obtain ⟨s2, hs2⟩ := dropWhile_mid s t hh hne
  rw [hs2]
  unfold List.rdropWhile
  rw [show (s2 ++ (nd ++ t)).reverse = t.reverse ++ (nd.reverse ++ s2.reverse) by simp]
  have hh2 : ∀ c, nd.reverse.head? = some c → isPySpace c = false := by
    intro c hc
    rw [List.head?_reverse] at hc
    exact hl c hc
  have hne2 : nd.reverse ≠ [] := by simpa using hne
  obtain ⟨s3, hs3⟩ := dropWhile_mid t.reverse s2.reverse hh2 hne2
  rw [hs3]
  rw [show (s3 ++ (nd.reverse ++ s2.reverse)).reverse = s2 ++ (nd ++ s3.reverse) by simp]
  exact ⟨s2, s3.reverse, rfl⟩

theorem dropWhile_pyLower (l : List Char) :
    (pyLowerL l).dropWhile isPySpace = pyLowerL (l.dropWhile isPySpace) := by
  unfold pyLowerL
  rw [List.dropWhile_map]
  have he : (isPySpace ∘ Char.toLower) = isPySpace := funext isPySpace_toLower
  rw [he]

theorem reverse_pyLower (l : List Char) : (pyLowerL l).reverse = pyLowerL l.reverse :=
  (List.map_reverse Char.toLower l).symm

theorem pyLower_pyStrip_comm (l : List Char) :
    pyLowerL (pyStripL l) = pyStripL (pyLowerL l) := by
  unfold pyStripL List.rdropWhile
  conv_rhs => rw [dropWhile_pyLower, reverse_pyLower, dropWhile_pyLower, reverse_pyLower]

theorem parseTitlePieces_mem {sep : Char} {resp : List Char} {t : String}
    (h : t ∈ parseTitlePieces sep resp) :
    containsSubL (pyLowerL t.data) "werkstudent".data = true ∨
    containsSubL (pyLowerL t.data) "working student".data = true := by
  unfold parseTitlePieces at h
  rw [List.mem_map] at h
  obtain ⟨piece, hmem, rfl⟩ := h
  rw [List.mem_filter] at hmem
  obtain ⟨_, hcond⟩ := hmem
  rw [Bool.and_eq_true, Bool.or_eq_true] at hcond
  have hstrip : ∀ nd : List Char, nd ≠ [] →
      (∀ c, nd.head? = some c → isPySpace c = false) →
      (∀ c, nd.getLast? = some c → isPySpace c = false) →
      containsSubL (pyLowerL piece) nd = true →
      containsSubL (pyLowerL (String.mk (pyStripL piece)).data) nd = true := by
    intro nd hne hh hl hc
    rw [data_mk, pyLower_pyStrip_comm]
    exact containsSub_pyStrip hne hh hl hc
  rcases hcond.2 with hc | hc
  · refine Or.inl (hstrip _ (by decide) ?_ ?_ hc)
    · intro c hc2
      have he : ("werkstudent".data).head? = some 'w' := rfl
      rw [he] at hc2
      cases Option.some.inj hc2
      rfl
    · intro c hc2
      have he : ("werkstudent".data).getLast? = some 't' := rfl
      rw [he] at hc2
      cases Option.some.inj hc2
      rfl
  · refine Or.inr (hstrip _ (by decide) ?_ ?_ hc)
    · intro c hc2
      have he : ("working student".data).head? = some 'w' := rfl
      rw [he] at hc2
      cases Option.some.inj hc2
      rfl
    · intro c hc2
      have he : ("working student".data).getLast? = some 't' := rfl
      rw [he] at hc2
      cases Option.some.inj hc2
      rfl

theorem suggest_cases (resume : String) (n : Nat) (resp : Option String) :
    suggest_job_titles_from_resume resume n resp = [] ∨
    ∃ rt sep, resp = some rt ∧
      suggest_job_titles_from_resume resume n resp =
        (parseTitlePieces sep rt.data).take n := by
  by_cases h1 : resume.data.isEmpty = true
  · left
    unfold suggest_job_titles_from_resume
    rw [if_pos h1]
  · cases resp with
    | none =>
      left
      unfold suggest_job_titles_from_resume
      rw [if_neg h1]
    | some rt =>
      by_cases h2 : rt.data.isEmpty = true
      · left
        unfold suggest_job_titles_from_resume
        rw [if_neg h1]
        simp [h2]
      · by_cases h3 : (!(parseTitlePieces ',' rt.data).isEmpty) = true
        · right
          refine ⟨rt, ',', rfl, ?_⟩
          unfold suggest_job_titles_from_resume
          rw [if_neg h1]
          simp [h2, h3]
        · by_cases h4 : (parseTitlePieces '\n' rt.data).isEmpty = true
          · left
            unfold suggest_job_titles_from_resume
            rw [if_neg h1]
            simp [h2, h3, h4]
          · right
            refine ⟨rt, '\n', rfl, ?_⟩
            unfold suggest_job_titles_from_resume
            rw [if_neg h1]
            simp [h2, h3, h4]

/-- Claim C10: every title returned by the role-suggestion parser contains a
working-student marker (case-insensitively), the list never exceeds
`num_suggestions` elements, and an empty resume, a missing response, an empty
response, or a response from which neither the comma pass nor the newline
fallback extracts any title all yield the empty list. -/
theorem claim_C10_suggest_titles_spec (resume : String) (n : Nat) (resp : Option String) :
    (suggest_job_titles_from_resume resume n resp).length ≤ n ∧
    (∀ t ∈ suggest_job_titles_from_resume resume n resp,
      containsSubL (pyLowerL t.data) "werkstudent".data = true ∨
      containsSubL (pyLowerL t.data) "working student".data = true) ∧
    (resume.data.isEmpty = true → suggest_job_titles_from_resume resume n resp = []) ∧
    (resp = none → suggest_job_titles_from_resume resume n resp = []) ∧
    (∀ rt, resp = some rt → rt.data.isEmpty = true →
      suggest_job_titles_from_resume resume n resp = []) ∧
    (∀ rt, resp = some rt → parseTitlePieces ',' rt.data = [] →
      parseTitlePieces '\n' rt.data = [] →
      suggest_job_titles_from_resume resume n resp = []) := by
  refine ⟨?_, ?_, ?_, ?_, ?_, ?_⟩
  · rcases suggest_cases resume n resp with h | ⟨rt, sep, _, h⟩
    · rw [h]; exact Nat.zero_le n
    · rw [h]; exact List.length_take_le n _
  · intro t ht
    rcases suggest_cases resume n resp with h | ⟨rt, sep, _, h⟩
    · rw [h] at ht; exact absurd ht (List.not_mem_nil t)
    · rw [h] at ht
      exact parseTitlePieces_mem (List.mem_of_mem_take ht)
  · intro h
    unfold suggest_job_titles_from_resume
    rw [if_pos h]
  · intro h
    subst h
    unfold suggest_job_titles_from_resume
    split
    · rfl
    · rfl
  · intro rt h hempty
    subst h
    unfold suggest_job_titles_from_resume
    split
    · rfl
    · simp [hempty]
  · intro rt h hc hn
    subst h
    unfold suggest_job_titles_from_resume
    split
    · rfl
    · simp [hc, hn]

theorem claim_C10_witness :
    (suggest_job_titles_from_resume "python" 1
      (some "Werkstudent Data Analysis, Working Student DevOps")).length ≤ 1 ∧
    suggest_job_titles_from_resume "" 3 (some "Werkstudent A") = [] ∧
    suggest_job_titles_from_resume "python" 3 none = [] ∧
    suggest_job_titles_from_resume "python" 3 (some "no match here") = [] := by
  have h1 := claim_C10_suggest_titles_spec "python" 1
    (some "Werkstudent Data Analysis, Working Student DevOps")
  have h2 := claim_C10_suggest_titles_spec "" 3 (some "Werkstudent A")
  have h3 := claim_C10_suggest_titles_spec "python" 3 none
  have h4 := claim_C10_suggest_titles_spec "python" 3 (some "no match here")
  exact ⟨h1.1, h2.2.2.1 (by decide), h3.2.2.2.1 rfl,
    h4.2.2.2.2.2 "no match here" rfl (by decide) (by decide)⟩
